import Mathlib

/-!
Verification development for the VancouverBikeData format-normalization
pipeline.  The definitions below are shallow embeddings of the Python
functions in src/process_excel.py, src/excel_reader.py and src/pdfex.py:
pandas DataFrames become lists of records, cells become an explicit
cell-value type, numeric cells are modelled over Int (all counts in the
sources are integral; no claim touches fractional or special float
values), and fallible steps return Option.  Strings are compared and
lowercased over their character lists, code point by code point, which
matches the Python semantics on the ASCII data these files handle.
-/

/-! Basic string utilities shared by several embedded functions. -/

/-- Code-point comparison of characters, as Python compares strings. -/
def charLt (a b : Char) : Bool := a.toNat < b.toNat

/-- Lexicographic strict order on character lists (Python string order). -/
def strLtL : List Char → List Char → Bool
  | [], [] => false
  | [], _ :: _ => true
  | _ :: _, [] => false
  | a :: as, b :: bs => charLt a b || (a == b && strLtL as bs)

/-- Lexicographic strict order on strings. -/
def strLt (a b : String) : Bool := strLtL a.data b.data

/-- ASCII lowercasing of one character, the effect of Python str.lower
on the ASCII column names appearing in these sources. -/
def lowerChar (c : Char) : Char :=
  if 65 ≤ c.toNat && c.toNat ≤ 90 then Char.ofNat (c.toNat + 32) else c

/-- ASCII lowercasing of a string. -/
def lowerStr (s : String) : String := ⟨s.data.map lowerChar⟩

/-- Boolean list-prefix test used to implement the substring test. -/
def isPrefixOfB : List Char → List Char → Bool
  | [], _ => true
  | _ :: _, [] => false
  | a :: as, b :: bs => a == b && isPrefixOfB as bs

/-- Boolean substring test on character lists, the Python `needle in
haystack` operator on strings. -/
def isInfixOfB (n : List Char) : List Char → Bool
  | [] => isPrefixOfB n []
  | c :: t => isPrefixOfB n (c :: t) || isInfixOfB n t

/-- Test whether the lowercased column name contains the given
(lowercase) keyword, as in `keyword in col.lower()`. -/
def containsTok (name tok : String) : Bool :=
  isInfixOfB tok.data (lowerStr name).data

/-- Numeric value of a list of decimal digits. -/
def digitsToNat (cs : List Char) : Nat :=
  cs.foldl (fun a c => a * 10 + (c.toNat - 48)) 0

/-- Parse an optionally signed integer numeral, returning none on any
other string.  This models Python float(...) and pandas to_numeric on
the integral numerals this data contains; any non-numeral input makes
float(...) raise and to_numeric(errors = coerce) yield NaN, both of
which are modelled by none. -/
def parseNumeral (s : String) : Option Int :=
  match s.data with
  | [] => none
  | '-' :: rest =>
      if !rest.isEmpty && rest.all Char.isDigit then some (-(digitsToNat rest : Int)) else none
  | cs =>
      if cs.all Char.isDigit then some ((digitsToNat cs : Int)) else none

/-- Remove every comma from a string, the effect of
str.replace applied to the thousands separator. -/
def stripCommas (s : String) : String := ⟨s.data.filter (fun c => c != ',')⟩

/-! Data model for the Dataset Merger (src/process_excel.py).  A
canonical frame is the list of its column names together with its rows
under the canonical five-column schema. -/

/-- Calendar date as stored in the Date column (pandas timestamps
compare lexicographically on year, month, day). -/
structure BDate where
  y : Int
  m : Int
  d : Int
deriving DecidableEq

/-- One canonical observation: a row of a frame with columns
Date, Year, Month, Route, Count. -/
structure BRow where
  date : BDate
  year : Int
  month : String
  route : String
  count : Int
deriving DecidableEq

/-- A canonical dataset: its column-name list (checked by
combine_bike_data) and its rows. -/
structure BFrame where
  cols : List String
  rows : List BRow
deriving DecidableEq

/-- Strict order on dates, lexicographic on (year, month, day). -/
def dateLt (a b : BDate) : Bool :=
  a.y < b.y || (a.y == b.y && (a.m < b.m || (a.m == b.m && a.d < b.d)))

/-- Rows with equal (Date, Route) key, the subset used by
drop_duplicates(subset=[Date, Route]). -/
def sameKey (a b : BRow) : Bool := a.date == b.date && a.route == b.route

/-- Strict order on the (Date, Route) sort key used by
sort_values([Date, Route]). -/
def rowKeyLt (a b : BRow) : Bool :=
  dateLt a.date b.date || (a.date == b.date && strLt a.route b.route)

/-- Reflexive order on the (Date, Route) sort key. -/
def rowKeyLe (a b : BRow) : Bool := rowKeyLt a b || sameKey a b

/-- Insert a row into a list that is sorted by the (Date, Route) key. -/
def insertRow (r : BRow) : List BRow → List BRow
  | [] => [r]
  | x :: xs => if rowKeyLe r x then r :: x :: xs else x :: insertRow r xs

/-- Sort rows ascending by (Date, Route): pandas
sort_values([Date, Route]).  Key order alone determines the result on
the key-distinct lists produced after deduplication. -/
def sortByKey (l : List BRow) : List BRow := l.foldr insertRow []

/-- Fuel-indexed helper for keep-first deduplication on (Date, Route). -/
def dedupFuel : Nat → List BRow → List BRow
  | 0, _ => []
  | _ + 1, [] => []
  | fuel + 1, r :: rs => r :: dedupFuel fuel (rs.filter (fun x => !(sameKey x r)))

/-- Keep-first deduplication on the (Date, Route) key: pandas
drop_duplicates(subset=[Date, Route]), which keeps the first occurrence
of each key in concatenation order. -/
def dedupByKey (l : List BRow) : List BRow := dedupFuel l.length l

/-- The five canonical columns checked by combine_bike_data. -/
def requiredColumns : List String := ["Date", "Year", "Month", "Route", "Count"]

/-- Column-presence check: every required column occurs in the frame. -/
def hasRequiredColumns (f : BFrame) : Bool :=
  requiredColumns.all (fun c => f.cols.contains c)

/-- Shallow embedding of combine_bike_data (src/process_excel.py,
lines 216-263): both inputs absent gives none; one absent input gives
the other back unchanged; with both present, each frame must contain
the five required columns, then the rows are concatenated with
historical first, deduplicated keeping the first occurrence of each
(Date, Route) key, and sorted ascending by (Date, Route).  The result
columns follow the pandas concat union order. -/
def combine_bike_data (recent historical : Option BFrame) : Option BFrame :=
  match recent, historical with
  | none, none => none
  | none, some h => some h
  | some r, none => some r
  | some r, some h =>
      if hasRequiredColumns r && hasRequiredColumns h then
        some { cols := h.cols ++ r.cols.filter (fun c => !(h.cols.contains c)),
               rows := sortByKey (dedupByKey (h.rows ++ r.rows)) }
      else none

/-- Key predicate for one concrete (Date, Route) key. -/
def matchesKey (d : BDate) (rt : String) (x : BRow) : Bool :=
  x.date == d && x.route == rt

/-- First row carrying the given (Date, Route) key, if any. -/
def findKey (l : List BRow) (d : BDate) (rt : String) : Option BRow :=
  l.find? (matchesKey d rt)

/-! Column Role Classifier.  The long-format path classifier is the
column mapping loop of process_recent_csv_data (src/process_excel.py,
lines 83-95); the Excel path keyword scans and the numeric fallback are
from process_bike_data and process_wide_format (src/excel_reader.py,
lines 102-118 and 177-180). -/

/-- Target of the column mapping in process_recent_csv_data: the
canonical column a source column is renamed to, or unmapped when no
keyword matches. -/
inductive RecentRole
  | location
  | direction
  | date
  | volume
  | unmapped
deriving DecidableEq

/-- Shallow embedding of the column mapping loop of
process_recent_csv_data (src/process_excel.py, lines 83-95).  The
branches are tried in source order: location or route, then direct,
then date or time, then volume or count. -/
def classifyRecentCol (name : String) : RecentRole :=
  if containsTok name "location" || containsTok name "route" then RecentRole.location
  else if containsTok name "direct" then RecentRole.direction
  else if containsTok name "date" || containsTok name "time" then RecentRole.date
  else if containsTok name "volume" || containsTok name "count" then RecentRole.volume
  else RecentRole.unmapped

/-- Date-like keywords of process_bike_data (src/excel_reader.py,
line 103). -/
def dateKeywords : List String := ["date", "year", "month", "time"]

/-- Route-like keywords of process_bike_data (src/excel_reader.py,
line 106). -/
def routeKeywords : List String :=
  ["bridge", "street", "road", "path", "lane", "route", "burrard", "hornby", "dunsmuir"]

/-- Column matches some date-like keyword. -/
def isDateCol (name : String) : Bool := dateKeywords.any (fun w => containsTok name w)

/-- Column matches some route-like keyword. -/
def isRouteCol (name : String) : Bool := routeKeywords.any (fun w => containsTok name w)

/-- A column of the Excel table: its name and whether its dtype is
numeric (the only two features the role heuristics inspect). -/
structure ExcelCol where
  name : String
  numeric : Bool
deriving DecidableEq

/-- Shallow embedding of the location-column selection feeding the
wide transposer (src/excel_reader.py, lines 106-108 and 177-180): the
keyword-matching columns are used when any exist; only otherwise the
numeric-dtype fallback selects the numeric columns that are not
date-like and not named Date, Year or MonthNum. -/
def selectRouteCols (cols : List ExcelCol) : List String :=
  let route_cols := (cols.filter (fun c => isRouteCol c.name)).map (fun c => c.name)
  if route_cols.isEmpty then
    (((cols.filter (fun c => c.numeric)).map (fun c => c.name)).filter
      (fun n => !((((cols.filter (fun c => isDateCol c.name)).map (fun c => c.name))
            ++ ["Date", "Year", "MonthNum"]).contains n)))
  else route_cols

/-! Date Synthesizer. -/

/-- Three-letter month labels, calendar.month_name[i][:3] for i = 1..12,
also the output of strftime with the month-abbreviation format. -/
def monthAbbrevs : List String :=
  ["Jan", "Feb", "Mar", "Apr", "May", "Jun", "Jul", "Aug", "Sep", "Oct", "Nov", "Dec"]

/-- Month label of a month number via monthAbbrevs (strftime on the
valid months 1..12). -/
def monthAbbrevOf (m : Int) : String := monthAbbrevs.getD (m - 1).toNat ""

/-- Shallow embedding of the month coercion in process_wide_format
(src/excel_reader.py, lines 146-152): pandas to_numeric with
errors = coerce, which yields NaN (none) on every non-numeral month
label.  The month-name lookup in the except branch of the source is
unreachable, because to_numeric with errors = coerce never raises. -/
def toNumericMonth (s : String) : Option Int := parseNumeral s

/-- Month numbers accepted by pandas to_datetime in a y-m-15 composite. -/
def validMonth (m : Int) : Bool := 1 ≤ m && m ≤ 12

/-- Shallow embedding of the date synthesis from separate year and
month columns in process_wide_format (src/excel_reader.py, lines
137-155): both fields are stringified, the month goes through
toNumericMonth, and to_datetime(year-month-15, errors = coerce) gives
day 15 of that year and month, or none when either coercion failed. -/
def synthDateWide (yearS monthS : String) : Option BDate :=
  match parseNumeral yearS, toNumericMonth monthS with
  | some y, some m => if validMonth m then some ⟨y, m, 15⟩ else none
  | _, _ => none

/-- Helper for the exact-case month lookup of pdfex. -/
def lookupMonthAux : List String → Int → String → Option Int
  | [], _, _ => none
  | a :: rest, i, m => if a == m then some i else lookupMonthAux rest (i + 1) m

/-- Shallow embedding of the month map of process_bike_data
(src/pdfex.py, lines 163-164): the keys are the exact title-case
three-letter prefixes of calendar.month_name, and dict lookup via
Series.map is case-sensitive, yielding NaN (none) on any other
capitalization. -/
def pdfMonthNum (m : String) : Option Int := lookupMonthAux monthAbbrevs 1 m

/-- Shallow embedding of the year synthesis of extract_data_from_pdf
(src/pdfex.py, line 97): the one- or two-digit year text is prefixed
with the characters "20". -/
def pdfYearStr (y : String) : String := "20" ++ y

/-- Shallow embedding of the date creation of process_bike_data
(src/pdfex.py, lines 161-167): day 15 of the numeric year and the
looked-up month; none models the to_datetime failure on an unmapped
month (that call has no errors = coerce and raises). -/
def synthDatePdf (yearS monthS : String) : Option BDate :=
  match parseNumeral yearS, pdfMonthNum monthS with
  | some y, some m => some ⟨y, m, 15⟩
  | _, _ => none

/-! Wide-to-Long Transposer (src/excel_reader.py, process_wide_format,
lines 185-207). -/

/-- Value of one table cell: absent (NaN), numeric, or text. -/
inductive CellV
  | absent
  | num (n : Int)
  | text (s : String)
deriving DecidableEq

/-- A wide-format row after the Date, Year and Month columns were
created: the synthesized date (none when to_datetime produced NaT, in
which case dropna removes the row), the Year and Month strings, and
the cells of the route columns in column order. -/
structure WideRow where
  date : Option BDate
  year : String
  month : String
  cells : List CellV
deriving DecidableEq

/-- One output observation of the wide transposer. -/
structure WideObs where
  date : BDate
  year : String
  month : String
  route : String
  count : Int
deriving DecidableEq

/-- Count extraction for one cell of the wide loop (src/excel_reader.py,
lines 188-199): absent cells fail pd.notna; float(...) on a text cell
succeeds only on a numeral (otherwise the except skips the cell); the
resulting value is kept only when strictly positive. -/
def emitCell : CellV → Option Int
  | CellV.absent => none
  | CellV.num n => if 0 < n then some n else none
  | CellV.text s =>
      match parseNumeral s with
      | some n => if 0 < n then some n else none
      | none => none

/-- Shallow embedding of the emission loop of process_wide_format
(src/excel_reader.py, lines 185-203): for every row that survived the
Date dropna and every route column, emit one observation from the cell
when emitCell accepts it, sharing the row date, year and month. -/
def process_wide_format (routes : List String) (rows : List WideRow) : List WideObs :=
  rows.flatMap (fun row =>
    match row.date with
    | none => []
    | some dt =>
        (routes.zip row.cells).filterMap (fun p =>
          (emitCell p.2).map (fun n => ⟨dt, row.year, row.month, p.1, n⟩)))

/-- A cell holding a strictly positive numeric non-missing value
(written from the spec wording for the wide-table observation count). -/
def isPositiveNumericCell : CellV → Bool
  | CellV.absent => false
  | CellV.num n => decide (0 < n)
  | CellV.text s =>
      match parseNumeral s with
      | some n => decide (0 < n)
      | none => false

/-- Number of (row, location-column) pairs with a strictly positive,
numeric, non-missing cell and a resolvable row date (written from the
spec wording; the take bounds the pairs to the location columns). -/
def wideSpecObsCount (routes : List String) (rows : List WideRow) : Nat :=
  (rows.map (fun row =>
    if row.date.isSome then (row.cells.take routes.length).countP isPositiveNumericCell
    else 0)).sum

/-! Long-Form Normalizer (src/process_excel.py,
process_recent_csv_data, lines 100-132). -/

/-- An input row of the recent long-format table after column mapping:
the parsed date (pd.to_datetime with errors = coerce, none for NaT),
the Location cell and the numeric Volume cell (none for NaN; the
Volume column of this source is numeric-typed). -/
structure RecentRawRow where
  location : Option String
  dateParsed : Option BDate
  volume : Option Int
deriving DecidableEq

/-- One output observation of the long-form normalizer; Year and Month
are extracted from the parsed date. -/
structure RecentObs where
  date : BDate
  year : Int
  month : String
  route : String
  count : Int
deriving DecidableEq

/-- Shallow embedding of the row processing of process_recent_csv_data
(src/process_excel.py, lines 100-132): rows with an unparseable date
are dropped, Year and Month are derived from the date, the frame is
rebuilt as Date, Year, Month, Route = Location, Count = Volume, and
dropna removes the rows with a missing Location or Volume.  No row is
aggregated with another and the Count value is copied verbatim. -/
def process_recent_csv_data (rows : List RecentRawRow) : List RecentObs :=
  rows.filterMap (fun r =>
    match r.dateParsed, r.location, r.volume with
    | some dt, some loc, some v => some ⟨dt, dt.y, monthAbbrevOf dt.m, loc, v⟩
    | _, _, _ => none)

/-! PDF-path wide-to-long conversion (src/pdfex.py). -/

/-- A processed PDF-table row entering create_long_format_data: its
Date, Year and Month values and the cells of the route columns. -/
structure PdfRow where
  date : BDate
  year : String
  month : String
  cells : List CellV
deriving DecidableEq

/-- One output record of create_long_format_data.  The count is copied
verbatim from the cell, so it is a CellV: when the count-column
conversion of process_bike_data failed, it can still be text. -/
structure PdfObs where
  date : BDate
  year : String
  month : String
  route : String
  count : CellV
deriving DecidableEq

/-- Shallow embedding of create_long_format_data (src/pdfex.py, lines
174-198): for every row and every route column, emit one record with
the cell copied verbatim whenever the cell passes pd.notna; zero or
negative values are not filtered here. -/
def create_long_format_data (routes : List String) (rows : List PdfRow) : List PdfObs :=
  rows.flatMap (fun row =>
    (routes.zip row.cells).filterMap (fun p =>
      match p.2 with
      | CellV.absent => none
      | c => some ⟨row.date, row.year, row.month, p.1, c⟩))

/-- Conversion of one cell by the count cleanup of process_bike_data
(src/pdfex.py, line 156): the cell is stringified, commas are removed,
a resulting "*" is replaced by NaN, and the column is cast to float.
The none result models the ValueError that astype(float) raises on a
non-numeral. -/
def cleanCellStep : CellV → Option CellV
  | CellV.absent => some CellV.absent
  | CellV.num n => some (CellV.num n)
  | CellV.text s =>
      let s2 := stripCommas s
      if s2 == "*" then some CellV.absent
      else (parseNumeral s2).map CellV.num

/-- Total companion of cleanCellStep: the cell value after a successful
column conversion, and the unchanged cell otherwise (on a failed cast
the source leaves the whole column as it was). -/
def cleanCellV (c : CellV) : CellV :=
  match cleanCellStep c with
  | some c2 => c2
  | none => c

/-- Shallow embedding of the per-column count cleanup of
process_bike_data (src/pdfex.py, lines 151-158): the column conversion
is attempted cell by cell, and if any cell fails the cast the except
branch keeps the whole column unchanged. -/
def convertCountColumn (col : List CellV) : List CellV :=
  match col.mapM cleanCellStep with
  | some col2 => col2
  | none => col

/-- An extracted PDF-table row before count cleanup, for a table with a
single route column: date material already resolved, and the raw count
cell. -/
structure PdfRawRow where
  date : BDate
  year : String
  month : String
  cell : CellV
deriving DecidableEq

/-- Composition of the count cleanup of process_bike_data with
create_long_format_data on a table with one route column (columns are
converted independently, so the one-column table exhibits the per-row
behavior of the pair of source loops). -/
def pdfProcessOneRoute (route : String) (rows : List PdfRawRow) : List PdfObs :=
  let col := convertCountColumn (rows.map (fun r => r.cell))
  create_long_format_data [route]
    (List.zipWith (fun r c => PdfRow.mk r.date r.year r.month [c]) rows col)

/-! Helper lemmas about the string order. -/

theorem strLtL_trans : ∀ a b c : List Char, strLtL a b = true → strLtL b c = true →
    strLtL a c = true := by
  intro a
  induction a with
  | nil =>
    intro b c hab hbc
    cases b with
    | nil => exact absurd hab (by simp [strLtL])
    | cons x xs =>
      cases c with
      | nil => exact absurd hbc (by simp [strLtL])
      | cons y ys => rfl
  | cons x xs ih =>
    intro b c hab hbc
    cases b with
    | nil => exact absurd hab (by simp [strLtL])
    | cons y ys =>
      cases c with
      | nil => exact absurd hbc (by simp [strLtL])
      | cons z zs =>
        simp only [strLtL, Bool.or_eq_true, Bool.and_eq_true, beq_iff_eq] at hab hbc ⊢
        rcases hab with h1 | ⟨rfl, h1⟩
        · rcases hbc with h2 | ⟨rfl, h2⟩
          · exact Or.inl (by simp [charLt] at h1 h2 ⊢; omega)
          · exact Or.inl h1
        · rcases hbc with h2 | ⟨rfl, h2⟩
          · exact Or.inl h2
          · exact Or.inr ⟨rfl, ih _ _ h1 h2⟩

theorem strLtL_total : ∀ a b : List Char, strLtL a b = false → a = b ∨ strLtL b a = true := by
  intro a
  induction a with
  | nil =>
    intro b h
    cases b with
    | nil => exact Or.inl rfl
    | cons y ys => exact absurd h (by simp [strLtL])
  | cons x xs ih =>
    intro b h
    cases b with
    | nil => exact Or.inr rfl
    | cons y ys =>
      simp only [strLtL, Bool.or_eq_true, Bool.and_eq_true, beq_iff_eq, not_or,
        Bool.or_eq_false_iff, Bool.and_eq_false_iff] at h ⊢
      obtain ⟨h1, h2⟩ := h
      by_cases hxy : x = y
      · subst hxy
        rcases h2 with h2 | h2
        · simp [beq_iff_eq] at h2
        · rcases ih ys h2 with rfl | h3
          · exact Or.inl rfl
          · exact Or.inr (Or.inr ⟨by simp, h3⟩)
      · refine Or.inr (Or.inl ?_)
        simp only [charLt, decide_eq_true_eq] at h1 ⊢
        simp only [charLt, decide_eq_false_iff_not] at h1
        rcases Nat.lt_or_ge y.toNat x.toNat with hlt | hge
        · exact hlt
        · exact absurd (Char.ext (UInt32.ext (by simp only [Char.toNat] at h1 hge ⊢; omega)))
            hxy

theorem strLt_trans {a b c : String} (h1 : strLt a b = true) (h2 : strLt b c = true) :
    strLt a c = true := strLtL_trans _ _ _ h1 h2

theorem strLt_total {a b : String} (h : strLt a b = false) : a = b ∨ strLt b a = true := by
  rcases strLtL_total a.data b.data h with he | hlt
  · exact Or.inl (congrArg String.mk he)
  · exact Or.inr hlt

/-! Helper lemmas about the (Date, Route) key order. -/

theorem sameKey_refl (a : BRow) : sameKey a a = true := by
  simp [sameKey]

theorem sameKey_iff {a b : BRow} : sameKey a b = true ↔ a.date = b.date ∧ a.route = b.route := by
  simp [sameKey]

theorem sameKey_comm (a b : BRow) : sameKey a b = sameKey b a := by
  cases hab : sameKey a b
  · cases hba : sameKey b a
    · rfl
    · obtain ⟨hd, hr⟩ := sameKey_iff.mp hba
      exact absurd (sameKey_iff.mpr ⟨hd.symm, hr.symm⟩) (by simp [hab])
  · obtain ⟨hd, hr⟩ := sameKey_iff.mp hab
    exact (sameKey_iff.mpr ⟨hd.symm, hr.symm⟩).symm

theorem dateLt_trans {a b c : BDate} (h1 : dateLt a b = true) (h2 : dateLt b c = true) :
    dateLt a c = true := by
  obtain ⟨ay, am, ad⟩ := a
  obtain ⟨by_, bm, bd⟩ := b
  obtain ⟨cy, cm, cd⟩ := c
  simp only [dateLt, Bool.or_eq_true, Bool.and_eq_true, beq_iff_eq, decide_eq_true_eq] at h1 h2 ⊢
  omega

theorem dateLt_total {a b : BDate} (h : dateLt a b = false) : a = b ∨ dateLt b a = true := by
  obtain ⟨ay, am, ad⟩ := a
  obtain ⟨by_, bm, bd⟩ := b
  simp only [dateLt, Bool.or_eq_false_iff, Bool.and_eq_false_iff, Bool.or_eq_true,
    Bool.and_eq_true, beq_iff_eq, decide_eq_true_eq, decide_eq_false_iff_not,
    BDate.mk.injEq, beq_eq_false_iff_ne, ne_eq] at h ⊢
  omega

theorem dateLt_irrefl (a : BDate) : dateLt a a = false := by
  obtain ⟨ay, am, ad⟩ := a
  simp [dateLt]

theorem rowKeyLt_of_le_of_not_same {a b : BRow} (h1 : rowKeyLe a b = true)
    (h2 : sameKey a b = false) : rowKeyLt a b = true := by
  simp only [rowKeyLe, Bool.or_eq_true] at h1
  rcases h1 with h1 | h1
  · exact h1
  · exact absurd h1 (by simp [h2])

theorem rowKeyLt_congr_right {a b c : BRow} (h1 : rowKeyLt a b = true)
    (h2 : sameKey b c = true) : rowKeyLt a c = true := by
  obtain ⟨hd, hr⟩ := sameKey_iff.mp h2
  simp only [rowKeyLt, Bool.or_eq_true, Bool.and_eq_true, beq_iff_eq] at h1 ⊢
  rcases h1 with h1 | ⟨he, h1⟩
  · exact Or.inl (hd ▸ h1)
  · exact Or.inr ⟨he.trans hd, hr ▸ h1⟩

theorem rowKeyLt_congr_left {a b c : BRow} (h1 : sameKey a b = true)
    (h2 : rowKeyLt b c = true) : rowKeyLt a c = true := by
  obtain ⟨hd, hr⟩ := sameKey_iff.mp h1
  simp only [rowKeyLt, Bool.or_eq_true, Bool.and_eq_true, beq_iff_eq] at h2 ⊢
  rcases h2 with h2 | ⟨he, h2⟩
  · exact Or.inl (hd ▸ h2)
  · exact Or.inr ⟨hd.trans he, hr ▸ h2⟩

theorem rowKeyLt_trans {a b c : BRow} (h1 : rowKeyLt a b = true) (h2 : rowKeyLt b c = true) :
    rowKeyLt a c = true := by
  simp only [rowKeyLt, Bool.or_eq_true, Bool.and_eq_true, beq_iff_eq] at h1 h2 ⊢
  rcases h1 with h1 | ⟨he1, h1⟩
  · rcases h2 with h2 | ⟨he2, h2⟩
    · exact Or.inl (dateLt_trans h1 h2)
    · exact Or.inl (he2 ▸ h1)
  · rcases h2 with h2 | ⟨he2, h2⟩
    · exact Or.inl (he1 ▸ h2)
    · exact Or.inr ⟨he1.trans he2, strLt_trans h1 h2⟩

theorem rowKeyLe_trans {a b c : BRow} (h1 : rowKeyLe a b = true) (h2 : rowKeyLe b c = true) :
    rowKeyLe a c = true := by
  simp only [rowKeyLe, Bool.or_eq_true] at h1 h2 ⊢
  rcases h1 with h1 | h1
  · rcases h2 with h2 | h2
    · exact Or.inl (rowKeyLt_trans h1 h2)
    · exact Or.inl (rowKeyLt_congr_right h1 h2)
  · rcases h2 with h2 | h2
    · exact Or.inl (rowKeyLt_congr_left h1 h2)
    · exact Or.inr (by
        obtain ⟨d1, r1⟩ := sameKey_iff.mp h1
        obtain ⟨d2, r2⟩ := sameKey_iff.mp h2
        exact sameKey_iff.mpr ⟨d1.trans d2, r1.trans r2⟩)

theorem rowKeyLe_total {a b : BRow} (h : rowKeyLe a b = false) : rowKeyLe b a = true := by
  simp only [rowKeyLe, rowKeyLt, Bool.or_eq_false_iff, Bool.and_eq_false_iff,
    Bool.or_eq_true, Bool.and_eq_true, beq_iff_eq, beq_eq_false_iff_ne, ne_eq] at h ⊢
  obtain ⟨⟨hdlt, hrest⟩, hsame⟩ := h
  rcases dateLt_total hdlt with hde | hdlt2
  · rcases hrest with hne | hslt
    · exact absurd hde hne
    · rcases strLt_total hslt with hre | hslt2
      · exact absurd (sameKey_iff.mpr ⟨hde, hre⟩) (by simp [hsame])
      · exact Or.inl (Or.inr ⟨hde.symm, hslt2⟩)
  · exact Or.inl (Or.inl hdlt2)

theorem not_sameKey_of_lt {a b : BRow} (h : rowKeyLt a b = true) : sameKey a b = false := by
  by_contra hc
  have hs : sameKey a b = true := by
    cases hsk : sameKey a b
    · exact absurd hsk hc
    · rfl
  obtain ⟨hd, hr⟩ := sameKey_iff.mp hs
  simp only [rowKeyLt, Bool.or_eq_true, Bool.and_eq_true, beq_iff_eq] at h
  rcases h with h | ⟨_, h⟩
  · rw [hd] at h
    exact absurd h (by simp [dateLt_irrefl])
  · rw [hr] at h
    have : strLtL b.route.data b.route.data = false := by
      clear h
      induction b.route.data with
      | nil => rfl
      | cons c cs ih => simp [strLtL, charLt, ih]
    exact absurd h (by simp [strLt, this])

/-! Helper lemmas about deduplication and sorting. -/

theorem dedupFuel_congr : ∀ (f1 f2 : Nat) (l : List BRow), l.length ≤ f1 → l.length ≤ f2 →
    dedupFuel f1 l = dedupFuel f2 l := by
  intro f1
  induction f1 with
  | zero =>
    intro f2 l h1 _
    have : l = [] := List.length_eq_zero.mp (Nat.le_zero.mp h1)
    subst this
    cases f2 <;> rfl
  | succ n ih =>
    intro f2 l h1 h2
    cases l with
    | nil => cases f2 <;> rfl
    | cons r rs =>
      cases f2 with
      | zero => exact absurd h2 (by simp)
      | succ m =>
        simp only [dedupFuel]
        congr 1
        have hle : (rs.filter (fun x => !(sameKey x r))).length ≤ rs.length :=
          List.length_filter_le _ _
        exact ih m _ (le_trans hle (Nat.succ_le_succ_iff.mp h1))
          (le_trans hle (Nat.succ_le_succ_iff.mp h2))

theorem dedupByKey_cons (r : BRow) (rs : List BRow) :
    dedupByKey (r :: rs) = r :: dedupByKey (rs.filter (fun x => !(sameKey x r))) := by
  simp only [dedupByKey, List.length_cons, dedupFuel]
  congr 1
  exact dedupFuel_congr rs.length _ _ (List.length_filter_le _ _) le_rfl

theorem mem_dedupFuel : ∀ (fuel : Nat) (l : List BRow) (x : BRow),
    x ∈ dedupFuel fuel l → x ∈ l := by
  intro fuel
  induction fuel with
  | zero => intro l x h; exact absurd h (by simp [dedupFuel])
  | succ n ih =>
    intro l x h
    cases l with
    | nil => exact absurd h (by simp [dedupFuel])
    | cons r rs =>
      simp only [dedupFuel, List.mem_cons] at h ⊢
      rcases h with rfl | h
      · exact Or.inl rfl
      · exact Or.inr (List.mem_of_mem_filter (ih _ x h))

theorem dedupFuel_pairwise : ∀ (fuel : Nat) (l : List BRow),
    List.Pairwise (fun a b => sameKey a b = false) (dedupFuel fuel l) := by
  intro fuel
  induction fuel with
  | zero => intro l; simp [dedupFuel]
  | succ n ih =>
    intro l
    cases l with
    | nil => simp [dedupFuel]
    | cons r rs =>
      simp only [dedupFuel, List.pairwise_cons]
      refine ⟨?_, ih _⟩
      intro x hx
      have hmem := mem_dedupFuel _ _ _ hx
      have := List.of_mem_filter hmem
      simp only [Bool.not_eq_true'] at this
      rw [sameKey_comm]
      exact this

theorem dedupByKey_pairwise (l : List BRow) :
    List.Pairwise (fun a b => sameKey a b = false) (dedupByKey l) :=
  dedupFuel_pairwise _ _

theorem find?_filter_eq (p q : BRow → Bool) (himp : ∀ y, p y = true → q y = true) :
    ∀ l : List BRow, (l.filter q).find? p = l.find? p := by
  intro l
  induction l with
  | nil => rfl
  | cons x xs ih =>
    by_cases hq : q x
    · rw [List.filter_cons_of_pos hq]
      by_cases hp : p x
      · rw [List.find?_cons_of_pos _ hp, List.find?_cons_of_pos _ hp]
      · rw [List.find?_cons_of_neg _ hp, List.find?_cons_of_neg _ hp]
        exact ih
    · rw [List.filter_cons_of_neg hq]
      have hp : p x = false := by
        cases hpx : p x
        · rfl
        · exact absurd (himp x hpx) hq
      rw [List.find?_cons_of_neg _ (by simp [hp])]
      exact ih

theorem dedupFuel_filter_key : ∀ (fuel : Nat) (l : List BRow) (d : BDate) (rt : String)
    (a : BRow), l.length ≤ fuel → l.find? (matchesKey d rt) = some a →
    (dedupFuel fuel l).filter (matchesKey d rt) = [a] := by
  intro fuel
  induction fuel with
  | zero =>
    intro l d rt a hlen hfind
    have : l = [] := List.length_eq_zero.mp (Nat.le_zero.mp hlen)
    subst this
    exact absurd hfind (by simp)
  | succ n ih =>
    intro l d rt a hlen hfind
    cases l with
    | nil => exact absurd hfind (by simp)
    | cons r rs =>
      by_cases hr : matchesKey d rt r
      · rw [List.find?_cons_of_pos _ hr] at hfind
        injection hfind with hfind
        subst hfind
        simp only [dedupFuel]
        rw [List.filter_cons_of_pos hr]
        congr 1
        rw [List.filter_eq_nil_iff]
        intro x hx
        have hmem := mem_dedupFuel _ _ _ hx
        have hnot := List.of_mem_filter hmem
        simp only [Bool.not_eq_true'] at hnot
        intro hmatch
        have hsk : sameKey x r = true := by
          obtain ⟨hd1, hr1⟩ := (by simpa [matchesKey] using hmatch :
            x.date = d ∧ x.route = rt)
          obtain ⟨hd2, hr2⟩ := (by simpa [matchesKey] using hr :
            r.date = d ∧ r.route = rt)
          exact sameKey_iff.mpr ⟨hd1.trans hd2.symm, hr1.trans hr2.symm⟩
        rw [hsk] at hnot
        cases hnot
      · rw [List.find?_cons_of_neg _ hr] at hfind
        simp only [dedupFuel]
        rw [List.filter_cons_of_neg hr]
        apply ih _ d rt a
        · exact le_trans (List.length_filter_le _ _) (Nat.succ_le_succ_iff.mp hlen)
        · rw [find?_filter_eq (matchesKey d rt) (fun x => !(sameKey x r)) ?_ rs]
          · exact hfind
          · intro y hy
            simp only [Bool.not_eq_true', Bool.not_eq_true]
            cases hsk : sameKey y r
            · rfl
            · exfalso
              obtain ⟨hd1, hr1⟩ := sameKey_iff.mp hsk
              obtain ⟨hd2, hr2⟩ := (by simpa [matchesKey] using hy :
                y.date = d ∧ y.route = rt)
              exact absurd (by simp [matchesKey, hd1 ▸ hd2, hr1 ▸ hr2] :
                matchesKey d rt r = true) (by simp [hr])

theorem dedupByKey_filter_key (l : List BRow) (d : BDate) (rt : String) (a : BRow)
    (hfind : l.find? (matchesKey d rt) = some a) :
    (dedupByKey l).filter (matchesKey d rt) = [a] :=
  dedupFuel_filter_key _ _ _ _ _ le_rfl hfind

theorem dedupByKey_append_self : ∀ (n : Nat) (l : List BRow), l.length ≤ n →
    dedupByKey (l ++ l) = dedupByKey l := by
  intro n
  induction n with
  | zero =>
    intro l h
    have : l = [] := List.length_eq_zero.mp (Nat.le_zero.mp h)
    subst this
    rfl
  | succ n ih =>
    intro l h
    cases l with
    | nil => rfl
    | cons x xs =>
      have hstep : (x :: xs) ++ (x :: xs) = x :: (xs ++ x :: xs) := by simp
      rw [hstep, dedupByKey_cons, dedupByKey_cons]
      congr 1
      rw [List.filter_append]
      have hx : (x :: xs).filter (fun y => !(sameKey y x)) = xs.filter (fun y => !(sameKey y x)) := by
        rw [List.filter_cons_of_neg (by simp [sameKey_refl])]
      rw [hx]
      exact ih _ (le_trans (List.length_filter_le _ _) (Nat.succ_le_succ_iff.mp h))

theorem dedupByKey_eq_self : ∀ l : List BRow,
    List.Pairwise (fun a b => sameKey a b = false) l → dedupByKey l = l := by
  intro l
  induction l with
  | nil => intro _; rfl
  | cons x xs ih =>
    intro hp
    rw [dedupByKey_cons]
    have hfl : xs.filter (fun y => !(sameKey y x)) = xs := by
      rw [List.filter_eq_self]
      intro y hy
      have := (List.pairwise_cons.mp hp).1 y hy
      rw [sameKey_comm] at this
      simp [this]
    rw [hfl, ih (List.pairwise_cons.mp hp).2]

theorem insertRow_perm (r : BRow) : ∀ l : List BRow, (insertRow r l).Perm (r :: l) := by
  intro l
  induction l with
  | nil => exact List.Perm.refl _
  | cons x xs ih =>
    simp only [insertRow]
    by_cases h : rowKeyLe r x
    · rw [if_pos h]
    · rw [if_neg h]
      exact (List.Perm.cons x ih).trans (List.Perm.swap r x xs)

theorem sortByKey_perm : ∀ l : List BRow, (sortByKey l).Perm l := by
  intro l
  induction l with
  | nil => exact List.Perm.refl _
  | cons x xs ih =>
    have : sortByKey (x :: xs) = insertRow x (sortByKey xs) := rfl
    rw [this]
    exact (insertRow_perm x (sortByKey xs)).trans (List.Perm.cons x ih)

theorem mem_insertRow {y r : BRow} {l : List BRow} (h : y ∈ insertRow r l) :
    y = r ∨ y ∈ l := by
  have := (insertRow_perm r l).mem_iff.mp h
  simpa using this

theorem insertRow_pairwise_le (r : BRow) : ∀ l : List BRow,
    List.Pairwise (fun a b => rowKeyLe a b = true) l →
    List.Pairwise (fun a b => rowKeyLe a b = true) (insertRow r l) := by
  intro l
  induction l with
  | nil => intro _; simp [insertRow]
  | cons x xs ih =>
    intro hp
    obtain ⟨hx, hxs⟩ := List.pairwise_cons.mp hp
    simp only [insertRow]
    by_cases h : rowKeyLe r x
    · rw [if_pos h]
      refine List.pairwise_cons.mpr ⟨?_, hp⟩
      intro y hy
      rcases List.mem_cons.mp hy with rfl | hy2
      · exact h
      · exact rowKeyLe_trans h (hx y hy2)
    · rw [if_neg h]
      refine List.pairwise_cons.mpr ⟨?_, ih hxs⟩
      intro y hy
      rcases mem_insertRow hy with rfl | hy2
      · have hf : rowKeyLe y x = false := by
          cases hc : rowKeyLe y x
          · rfl
          · exact absurd hc h
        exact rowKeyLe_total hf
      · exact hx y hy2

theorem sortByKey_pairwise_le : ∀ l : List BRow,
    List.Pairwise (fun a b => rowKeyLe a b = true) (sortByKey l) := by
  intro l
  induction l with
  | nil => simp [sortByKey]
  | cons x xs ih => exact insertRow_pairwise_le x (sortByKey xs) ih

theorem sortByKey_eq_self : ∀ l : List BRow,
    List.Pairwise (fun a b => rowKeyLe a b = true) l → sortByKey l = l := by
  intro l
  induction l with
  | nil => intro _; rfl
  | cons x xs ih =>
    intro hp
    obtain ⟨hx, hxs⟩ := List.pairwise_cons.mp hp
    have : sortByKey (x :: xs) = insertRow x (sortByKey xs) := rfl
    rw [this, ih hxs]
    cases xs with
    | nil => rfl
    | cons y ys =>
      simp only [insertRow]
      rw [if_pos (hx y (by simp))]

theorem filter_not_contains_self (l : List String) :
    l.filter (fun c => !(l.contains c)) = [] := by
  rw [List.filter_eq_nil_iff]
  intro a ha
  simp [List.contains, ha]

/-! Helper lemmas for the transposer and the PDF-path converter. -/

theorem length_filterMap_eq {α β : Type} (f : α → Option β) : ∀ l : List α,
    (l.filterMap f).length = l.countP (fun a => (f a).isSome) := by
  intro l
  induction l with
  | nil => rfl
  | cons x xs ih =>
    simp only [List.filterMap_cons, List.countP_cons]
    cases h : f x <;> simp [h, ih]

theorem countP_zip_snd {α β : Type} (q : β → Bool) : ∀ (l1 : List α) (l2 : List β),
    ((l1.zip l2).countP (fun p => q p.2)) = (l2.take l1.length).countP q := by
  intro l1
  induction l1 with
  | nil => intro l2; simp
  | cons x xs ih =>
    intro l2
    cases l2 with
    | nil => simp
    | cons y ys =>
      simp only [List.zip_cons_cons, List.countP_cons, List.length_cons, List.take_succ_cons,
        ih ys]

theorem mapM_eq_some_map {α β : Type} (f : α → Option β) (g : α → β) : ∀ l : List α,
    (∀ a ∈ l, f a = some (g a)) → l.mapM f = some (l.map g) := by
  intro l
  induction l with
  | nil => intro _; rfl
  | cons x xs ih =>
    intro h
    rw [List.mapM_cons, h x (by simp), ih (fun a ha => h a (by simp [ha]))]
    rfl

theorem emitCell_isSome (c : CellV) : (emitCell c).isSome = isPositiveNumericCell c := by
  cases c with
  | absent => rfl
  | num n =>
    simp only [emitCell, isPositiveNumericCell]
    by_cases h : 0 < n <;> simp [h]
  | text s =>
    simp only [emitCell, isPositiveNumericCell]
    cases h : parseNumeral s with
    | none => rfl
    | some n => by_cases h2 : 0 < n <;> simp [h2]

theorem cleanCellStep_eq_some {c : CellV} (h : (cleanCellStep c).isSome = true) :
    cleanCellStep c = some (cleanCellV c) := by
  cases hc : cleanCellStep c with
  | none => rw [hc] at h; cases h
  | some c2 => simp [cleanCellV, hc]

theorem isSome_option_map {α β : Type} (f : α → β) (o : Option α) :
    (o.map f).isSome = o.isSome := by
  cases o <;> rfl

theorem create_long_single (route : String) : ∀ rows : List PdfRawRow,
    create_long_format_data [route]
        (List.zipWith (fun r c => PdfRow.mk r.date r.year r.month [c]) rows
          (rows.map (fun r => cleanCellV r.cell)))
      = rows.filterMap (fun r =>
          match cleanCellV r.cell with
          | CellV.absent => none
          | c => some ⟨r.date, r.year, r.month, route, c⟩) := by
  intro rows
  induction rows with
  | nil => rfl
  | cons r rs ih =>
    simp only [create_long_format_data] at ih
    simp only [List.map_cons, List.zipWith_cons_cons, create_long_format_data,
      List.flatMap_cons, List.filterMap_cons]
    rw [ih]
    cases hc : cleanCellV r.cell with
    | absent => simp [hc]
    | num n => simp [hc]
    | text s => simp [hc]

/-- Claim C1 (amended): when both inputs are present and carry the five
required columns and both contain an observation for the same
(Date, Route) key, the merged dataset contains exactly one observation
for that key, and it is the first matching row of the HISTORICAL
dataset (so its Count is the historical one): pd.concat places
historical before recent and drop_duplicates keeps the first
occurrence, so historical-source values win, not recent ones as the
claim stated. -/
theorem claim_C1_merge_keeps_historical (r h m : BFrame) (d : BDate) (rt : String)
    (hr : BRow)
    (hc : combine_bike_data (some r) (some h) = some m)
    (hhist : findKey h.rows d rt = some hr)
    (_hrec : (findKey r.rows d rt).isSome = true) :
    m.rows.filter (matchesKey d rt) = [hr] := by
  simp only [combine_bike_data] at hc
  by_cases hcols : (hasRequiredColumns r && hasRequiredColumns h) = true
  · rw [if_pos hcols] at hc
    injection hc with hc
    subst hc
    show (sortByKey (dedupByKey (h.rows ++ r.rows))).filter (matchesKey d rt) = [hr]
    have hfind : (h.rows ++ r.rows).find? (matchesKey d rt) = some hr := by
      rw [List.find?_append]
      simp [findKey] at hhist
      simp [hhist]
    have hded := dedupByKey_filter_key (h.rows ++ r.rows) d rt hr hfind
    have hperm := (sortByKey_perm (dedupByKey (h.rows ++ r.rows))).filter (matchesKey d rt)
    rw [hded] at hperm
    exact List.perm_singleton.mp hperm
  · rw [if_neg hcols] at hc
    cases hc

/-- Witness for C1: the spec scenario with historical Count 5 and recent
Count 9 on key (2020-01-15, X); the merge result keeps the historical
row. -/
theorem claim_C1_merge_keeps_historical_witness :
    combine_bike_data
        (some ⟨requiredColumns, [⟨⟨2020,1,15⟩,2020,"Jan","X",9⟩]⟩)
        (some ⟨requiredColumns, [⟨⟨2020,1,15⟩,2020,"Jan","X",5⟩]⟩)
      = some ⟨requiredColumns, [⟨⟨2020,1,15⟩,2020,"Jan","X",5⟩]⟩
    ∧ (⟨requiredColumns, [⟨⟨2020,1,15⟩,2020,"Jan","X",5⟩]⟩ : BFrame).rows.filter
        (matchesKey ⟨2020,1,15⟩ "X") = [⟨⟨2020,1,15⟩,2020,"Jan","X",5⟩] :=
  ⟨by decide,
    claim_C1_merge_keeps_historical
      ⟨requiredColumns, [⟨⟨2020,1,15⟩,2020,"Jan","X",9⟩]⟩
      ⟨requiredColumns, [⟨⟨2020,1,15⟩,2020,"Jan","X",5⟩]⟩
      ⟨requiredColumns, [⟨⟨2020,1,15⟩,2020,"Jan","X",5⟩]⟩
      ⟨2020,1,15⟩ "X" ⟨⟨2020,1,15⟩,2020,"Jan","X",5⟩
      (by decide) (by decide) (by decide)⟩

/-- Counterexample to C1 as stated: merging historical Count 5 with
recent Count 9 on the shared key (2020-01-15, X) yields Count 5, not
the recent value 9 demanded by the claim. -/
theorem claim_C1_counterexample :
    (combine_bike_data
        (some ⟨requiredColumns, [⟨⟨2020,1,15⟩,2020,"Jan","X",9⟩]⟩)
        (some ⟨requiredColumns, [⟨⟨2020,1,15⟩,2020,"Jan","X",5⟩]⟩)).map
        (fun f => f.rows.map (fun row => row.count)) = some [5]
    ∧ ¬ ((combine_bike_data
        (some ⟨requiredColumns, [⟨⟨2020,1,15⟩,2020,"Jan","X",9⟩]⟩)
        (some ⟨requiredColumns, [⟨⟨2020,1,15⟩,2020,"Jan","X",5⟩]⟩)).map
        (fun f => f.rows.map (fun row => row.count)) = some [9]) :=
  ⟨by decide, by decide⟩

/-- Claim C2 (amended): for every wide-format table processed by the
Excel-path transposer process_wide_format, the number of output
observations equals the number of (row, location-column) pairs whose
cell holds a strictly positive numeric non-missing value and whose row
has a resolvable date; in particular zero and negative cells produce
no observation there.  The PDF-path converter create_long_format_data
does not satisfy this (see the counterexample) and is excluded. -/
theorem claim_C2_wide_count (routes : List String) (rows : List WideRow) :
    (process_wide_format routes rows).length = wideSpecObsCount routes rows := by
  induction rows with
  | nil => rfl
  | cons row rs ih =>
    simp only [process_wide_format, wideSpecObsCount, List.map_cons, List.sum_cons,
      List.flatMap_cons, List.length_append] at ih ⊢
    rw [ih]
    congr 1
    cases hd : row.date with
    | none => simp
    | some dt =>
      simp only [Option.isSome_some, if_pos]
      rw [length_filterMap_eq]
      simp only [isSome_option_map, emitCell_isSome]
      exact countP_zip_snd isPositiveNumericCell routes row.cells

/-- Counterexample to C2 as stated: in the PDF-path wide-to-long
conversion (count cleanup of process_bike_data followed by
create_long_format_data), a cell holding the value 0 produces an
observation with Count 0, where the claim demands that a zero cell
produce no observation. -/
theorem claim_C2_counterexample :
    (⟨⟨2021,8,15⟩,"2021","Aug","R",CellV.num 0⟩ : PdfObs) ∈
      pdfProcessOneRoute "R" [⟨⟨2021,8,15⟩,"2021","Aug",CellV.num 0⟩] := by decide

/-- Claim C3 (amended): in the long-format column mapper of
process_recent_csv_data, LOCATION keywords are checked before
date-like keywords, so a column name matching both is assigned
LOCATION, not the date-family role claimed; the second part of the
claim stands: when any column matches a location keyword, the Excel
wide-path selection uses exactly those keyword-matching columns and
ignores the numeric-dtype fallback. -/
theorem claim_C3_classifier_priority :
    (∀ name : String, (containsTok name "location" || containsTok name "route") = true →
        (containsTok name "date" || containsTok name "time") = true →
        classifyRecentCol name = RecentRole.location)
    ∧ (∀ cols : List ExcelCol, (cols.filter (fun c => isRouteCol c.name)).isEmpty = false →
        selectRouteCols cols = (cols.filter (fun c => isRouteCol c.name)).map
          (fun c => c.name)) := by
  constructor
  · intro name hloc _
    simp only [classifyRecentCol]
    rw [if_pos hloc]
  · intro cols hne
    simp only [selectRouteCols]
    cases hfe : cols.filter (fun c => isRouteCol c.name) with
    | nil => rw [hfe] at hne; cases hne
    | cons a as => rfl

/-- Witness for C3: the column name Route Date matches both a location
keyword and a date keyword and is mapped to LOCATION, and a list with
one keyword-matching column selects exactly the keyword matches. -/
theorem claim_C3_classifier_priority_witness :
    classifyRecentCol "Route Date" = RecentRole.location
    ∧ selectRouteCols [⟨"Burrard Bridge", true⟩, ⟨"Year", true⟩]
        = (([⟨"Burrard Bridge", true⟩, ⟨"Year", true⟩] : List ExcelCol).filter
            (fun c => isRouteCol c.name)).map (fun c => c.name) :=
  ⟨claim_C3_classifier_priority.1 "Route Date" (by decide) (by decide),
   claim_C3_classifier_priority.2 [⟨"Burrard Bridge", true⟩, ⟨"Year", true⟩] (by decide)⟩

/-- Counterexample to C3 as stated: the column name Route Date matches
both a location-like and a date-like keyword, yet the mapper of
process_recent_csv_data assigns it LOCATION, not the date role the
claim demands. -/
theorem claim_C3_counterexample :
    classifyRecentCol "Route Date" = RecentRole.location
    ∧ ¬ (classifyRecentCol "Route Date" = RecentRole.date) :=
  ⟨by decide, by decide⟩

/-- Claim C4 (amended): for every long-format table, each output row of
process_recent_csv_data corresponds to exactly one input row with a
resolvable date, a present location and a numeric count, the Count is
copied verbatim from that row, and no aggregation across rows occurs.
The non-negativity part of the claim fails: the code never filters the
sign of the count (see the counterexample). -/
theorem claim_C4_long_rows (rows : List RecentRawRow) :
    (process_recent_csv_data rows).length
        = rows.countP (fun r => r.dateParsed.isSome && r.location.isSome && r.volume.isSome)
    ∧ ∀ o ∈ process_recent_csv_data rows, ∃ r ∈ rows,
        r.dateParsed = some o.date ∧ r.location = some o.route ∧ r.volume = some o.count := by
  constructor
  · rw [process_recent_csv_data, length_filterMap_eq]
    apply List.countP_congr
    intro r _
    obtain ⟨loc, dp, vol⟩ := r
    cases dp <;> cases loc <;> cases vol <;> rfl
  · intro o ho
    obtain ⟨r, hrmem, hf⟩ := List.mem_filterMap.mp ho
    refine ⟨r, hrmem, ?_⟩
    obtain ⟨loc, dp, vol⟩ := r
    cases dp with
    | none => cases hf
    | some dt =>
      cases loc with
      | none => cases hf
      | some l =>
        cases vol with
        | none => cases hf
        | some v =>
          injection hf with hf
          subst hf
          exact ⟨rfl, rfl, rfl⟩

/-- Witness for C4: a one-row table with date 2023-05-10, location L and
volume 7 produces one observation whose source row is exhibited. -/
theorem claim_C4_long_rows_witness :
    (process_recent_csv_data [⟨some "L", some ⟨2023,5,10⟩, some 7⟩]).length
        = ([⟨some "L", some ⟨2023,5,10⟩, some 7⟩] : List RecentRawRow).countP
            (fun r => r.dateParsed.isSome && r.location.isSome && r.volume.isSome)
    ∧ ∃ r ∈ ([⟨some "L", some ⟨2023,5,10⟩, some 7⟩] : List RecentRawRow),
        r.dateParsed = some (⟨⟨2023,5,10⟩,2023,"May","L",7⟩ : RecentObs).date
        ∧ r.location = some (⟨⟨2023,5,10⟩,2023,"May","L",7⟩ : RecentObs).route
        ∧ r.volume = some (⟨⟨2023,5,10⟩,2023,"May","L",7⟩ : RecentObs).count :=
  ⟨(claim_C4_long_rows [⟨some "L", some ⟨2023,5,10⟩, some 7⟩]).1,
   (claim_C4_long_rows [⟨some "L", some ⟨2023,5,10⟩, some 7⟩]).2
     ⟨⟨2023,5,10⟩,2023,"May","L",7⟩ (by decide)⟩

/-- Counterexample to C4 as stated: an input row with volume -5, a valid
date and a location yields an output observation with the negative
Count -5, refuting the claimed non-negativity of every output Count. -/
theorem claim_C4_counterexample :
    (⟨⟨2023,5,10⟩,2023,"May","L",-5⟩ : RecentObs) ∈
      process_recent_csv_data [⟨some "L", some ⟨2023,5,10⟩, some (-5)⟩]
    ∧ ((-5 : Int) < 0) :=
  ⟨by decide, by decide⟩

/-- Claim C5 (code bug): day 15 is used and a numeric month works, but
the month-name handling the claim and the spec describe is broken in
the cited code: in the Excel wide path, to_numeric with errors coerce
never raises, so the month-abbreviation lookup in the except branch is
unreachable and a row with Month Jan gets no date (it is dropped,
contradicting the spec scenario for the wide table with Year 2022 and
Month Jan); in the PDF path the lookup keys are exact title-case, so
the mapping is case-sensitive, not case-insensitive.  The two-digit
year rule 2000 + y does hold in the PDF path. -/
theorem claim_C5_date_synthesis :
    synthDateWide "2022" "Jan" = none
    ∧ synthDateWide "2022" "1" = some ⟨2022, 1, 15⟩
    ∧ pdfMonthNum "Jan" = some 1
    ∧ pdfMonthNum "jan" = none
    ∧ pdfMonthNum "JAN" = none
    ∧ pdfYearStr "21" = "2021"
    ∧ synthDatePdf (pdfYearStr "21") "May" = some ⟨2021, 5, 15⟩ := by
  refine ⟨by decide, by decide, by decide, by decide, by decide, by decide, by decide⟩

/-- Claim C6 (amended): merging a canonical dataset A with itself
yields A again provided A carries the five required columns and its
rows are strictly sorted by the (Date, Route) key (in particular no
two rows share a key).  Without those provisos the claim fails: the
merge deduplicates and sorts, so a dataset with a repeated key (or out
of order) is not returned unchanged (see the counterexample). -/
theorem claim_C6_merge_self (A : BFrame) (hcols : hasRequiredColumns A = true)
    (hsorted : List.Pairwise (fun a b => rowKeyLt a b = true) A.rows) :
    combine_bike_data (some A) (some A) = some A := by
  obtain ⟨cols, rows⟩ := A
  simp only [combine_bike_data]
  rw [if_pos (by rw [hcols]; rfl)]
  have hc2 : cols ++ cols.filter (fun c => !(cols.contains c)) = cols := by
    rw [filter_not_contains_self, List.append_nil]
  have hnodup : List.Pairwise (fun a b => sameKey a b = false) rows :=
    hsorted.imp (fun hlt => not_sameKey_of_lt hlt)
  have hrows : sortByKey (dedupByKey (rows ++ rows)) = rows := by
    rw [dedupByKey_append_self rows.length rows le_rfl, dedupByKey_eq_self rows hnodup,
      sortByKey_eq_self rows (hsorted.imp (fun hlt => by simp [rowKeyLe, hlt]))]
  rw [hc2, hrows]

/-- Witness for C6: a two-row dataset with distinct, ascending keys is
returned unchanged when merged with itself. -/
theorem claim_C6_merge_self_witness :
    hasRequiredColumns ⟨requiredColumns,
        [⟨⟨2020,1,15⟩,2020,"Jan","B",7⟩, ⟨⟨2021,1,15⟩,2021,"Jan","A",5⟩]⟩ = true
    ∧ List.Pairwise (fun a b => rowKeyLt a b = true)
        ([⟨⟨2020,1,15⟩,2020,"Jan","B",7⟩, ⟨⟨2021,1,15⟩,2021,"Jan","A",5⟩] : List BRow)
    ∧ combine_bike_data
        (some ⟨requiredColumns, [⟨⟨2020,1,15⟩,2020,"Jan","B",7⟩, ⟨⟨2021,1,15⟩,2021,"Jan","A",5⟩]⟩)
        (some ⟨requiredColumns, [⟨⟨2020,1,15⟩,2020,"Jan","B",7⟩, ⟨⟨2021,1,15⟩,2021,"Jan","A",5⟩]⟩)
      = some ⟨requiredColumns,
          [⟨⟨2020,1,15⟩,2020,"Jan","B",7⟩, ⟨⟨2021,1,15⟩,2021,"Jan","A",5⟩]⟩ :=
  ⟨by decide, by decide,
   claim_C6_merge_self
     ⟨requiredColumns, [⟨⟨2020,1,15⟩,2020,"Jan","B",7⟩, ⟨⟨2021,1,15⟩,2021,"Jan","A",5⟩]⟩
     (by decide) (by decide)⟩

/-- Counterexample to C6 as stated: a dataset holding two observations
with the same (Date, Route) key is not equal to the result of merging
it with itself, because deduplication drops the second observation. -/
theorem claim_C6_counterexample :
    ¬ (combine_bike_data
        (some ⟨requiredColumns,
          [⟨⟨2020,1,15⟩,2020,"Jan","X",5⟩, ⟨⟨2020,1,15⟩,2020,"Jan","X",9⟩]⟩)
        (some ⟨requiredColumns,
          [⟨⟨2020,1,15⟩,2020,"Jan","X",5⟩, ⟨⟨2020,1,15⟩,2020,"Jan","X",9⟩]⟩)
      = some ⟨requiredColumns,
          [⟨⟨2020,1,15⟩,2020,"Jan","X",5⟩, ⟨⟨2020,1,15⟩,2020,"Jan","X",9⟩]⟩) := by decide

/-- Claim C7 (confirmed): if exactly one merge input is absent the
merge returns the other input unchanged, and if both are absent it
returns no dataset (the NO_DATA failure). -/
theorem claim_C7_merge_missing_inputs (f : BFrame) :
    combine_bike_data (some f) none = some f
    ∧ combine_bike_data none (some f) = some f
    ∧ combine_bike_data none none = (none : Option BFrame) :=
  ⟨rfl, rfl, rfl⟩

/-- Claim C8 (amended): when both inputs are present and the merge
returns a dataset, that dataset is strictly ascending in the
(Date, Route) key, hence sorted with no two observations sharing a
key.  The claim as stated fails for the single-input paths, which
return the present input unchanged even when it is unsorted or has
duplicate keys (see the counterexample). -/
theorem claim_C8_merge_invariant (r h m : BFrame)
    (hc : combine_bike_data (some r) (some h) = some m) :
    List.Pairwise (fun a b => rowKeyLt a b = true) m.rows := by
  simp only [combine_bike_data] at hc
  by_cases hcols : (hasRequiredColumns r && hasRequiredColumns h) = true
  · rw [if_pos hcols] at hc
    injection hc with hc
    subst hc
    show List.Pairwise _ (sortByKey (dedupByKey (h.rows ++ r.rows)))
    have hle := sortByKey_pairwise_le (dedupByKey (h.rows ++ r.rows))
    have hnd : List.Pairwise (fun a b => sameKey a b = false)
        (dedupByKey (h.rows ++ r.rows)) := dedupByKey_pairwise _
    have hnd2 : List.Pairwise (fun a b => sameKey a b = false)
        (sortByKey (dedupByKey (h.rows ++ r.rows))) := by
      refine ((sortByKey_perm _).pairwise_iff ?_).mpr hnd
      intro x y hxy
      rw [sameKey_comm]
      exact hxy
    exact (hle.and hnd2).imp (fun hab => rowKeyLt_of_le_of_not_same hab.1 hab.2)
  · rw [if_neg hcols] at hc
    cases hc

/-- Witness for C8: a merge of two one-row frames produces a dataset
and the theorem yields its sortedness. -/
theorem claim_C8_merge_invariant_witness :
    combine_bike_data
        (some ⟨requiredColumns, [⟨⟨2021,3,15⟩,2021,"Mar","B",4⟩]⟩)
        (some ⟨requiredColumns, [⟨⟨2020,1,15⟩,2020,"Jan","A",5⟩]⟩)
      = some ⟨requiredColumns,
          [⟨⟨2020,1,15⟩,2020,"Jan","A",5⟩, ⟨⟨2021,3,15⟩,2021,"Mar","B",4⟩]⟩
    ∧ List.Pairwise (fun a b => rowKeyLt a b = true)
        (⟨requiredColumns,
          [⟨⟨2020,1,15⟩,2020,"Jan","A",5⟩, ⟨⟨2021,3,15⟩,2021,"Mar","B",4⟩]⟩ : BFrame).rows :=
  ⟨by decide,
   claim_C8_merge_invariant
     ⟨requiredColumns, [⟨⟨2021,3,15⟩,2021,"Mar","B",4⟩]⟩
     ⟨requiredColumns, [⟨⟨2020,1,15⟩,2020,"Jan","A",5⟩]⟩
     ⟨requiredColumns, [⟨⟨2020,1,15⟩,2020,"Jan","A",5⟩, ⟨⟨2021,3,15⟩,2021,"Mar","B",4⟩]⟩
     (by decide)⟩

/-- Counterexample to C8 as stated: with the recent input absent, the
merge returns the historical frame unchanged, and that returned
dataset is not sorted ascending by (Date, Route). -/
theorem claim_C8_counterexample :
    combine_bike_data none
        (some ⟨requiredColumns,
          [⟨⟨2021,1,15⟩,2021,"Jan","A",5⟩, ⟨⟨2020,1,15⟩,2020,"Jan","B",7⟩]⟩)
      = some ⟨requiredColumns,
          [⟨⟨2021,1,15⟩,2021,"Jan","A",5⟩, ⟨⟨2020,1,15⟩,2020,"Jan","B",7⟩]⟩
    ∧ ¬ List.Pairwise (fun a b => rowKeyLt a b = true)
        ([⟨⟨2021,1,15⟩,2021,"Jan","A",5⟩, ⟨⟨2020,1,15⟩,2020,"Jan","B",7⟩] : List BRow) :=
  ⟨by decide, by decide⟩

/-- Claim C9 (amended): whenever the count column converts (every cell
is numeric, absent, or cleans to a numeral or the placeholder star
after comma-stripping), a row whose count cell is the placeholder star
is dropped, never coerced to zero, and a count with thousands
separators such as 1,250 is coerced to the separator-stripped number.
When a column contains an unconvertible cell the source keeps the
whole column as text and the star rows are emitted verbatim (see the
counterexample). -/
theorem claim_C9_star_and_separators (route : String) (rows : List PdfRawRow)
    (hconv : ∀ r ∈ rows, (cleanCellStep r.cell).isSome = true) :
    pdfProcessOneRoute route rows = rows.filterMap (fun r =>
        match cleanCellV r.cell with
        | CellV.absent => none
        | c => some ⟨r.date, r.year, r.month, route, c⟩)
    ∧ cleanCellV (CellV.text "*") = CellV.absent
    ∧ cleanCellV (CellV.text "1,250") = CellV.num 1250 := by
  refine ⟨?_, by decide, by decide⟩
  simp only [pdfProcessOneRoute]
  have hcol : convertCountColumn (rows.map (fun r => r.cell))
      = rows.map (fun r => cleanCellV r.cell) := by
    simp only [convertCountColumn]
    rw [mapM_eq_some_map cleanCellStep (fun c => cleanCellV c) (rows.map (fun r => r.cell))
      (fun a ha => by
        obtain ⟨r, hrmem, rfl⟩ := List.mem_map.mp ha
        exact cleanCellStep_eq_some (hconv r hrmem))]
    rw [List.map_map]
    rfl
  rw [hcol]
  exact create_long_single route rows

/-- Witness for C9: a two-row single-route table whose cells are the
separator-carrying numeral 1,250 and the placeholder star; the column
converts, the star row is dropped and the numeral row keeps 1250. -/
theorem claim_C9_star_and_separators_witness :
    pdfProcessOneRoute "Lions Gate"
        [⟨⟨2023,5,15⟩,"2023","May",CellV.text "1,250"⟩,
         ⟨⟨2023,6,15⟩,"2023","Jun",CellV.text "*"⟩]
      = ([⟨⟨2023,5,15⟩,"2023","May",CellV.text "1,250"⟩,
          ⟨⟨2023,6,15⟩,"2023","Jun",CellV.text "*"⟩] : List PdfRawRow).filterMap
          (fun r =>
            match cleanCellV r.cell with
            | CellV.absent => none
            | c => some ⟨r.date, r.year, r.month, "Lions Gate", c⟩)
    ∧ cleanCellV (CellV.text "*") = CellV.absent
    ∧ cleanCellV (CellV.text "1,250") = CellV.num 1250 :=
  claim_C9_star_and_separators "Lions Gate"
    [⟨⟨2023,5,15⟩,"2023","May",CellV.text "1,250"⟩,
     ⟨⟨2023,6,15⟩,"2023","Jun",CellV.text "*"⟩]
    (by decide)

/-- Counterexample to C9 as stated: a column holding the placeholder
star and an unconvertible cell makes the cast of the whole column
fail, the source keeps the column as text, and the star row is emitted
as an observation instead of being dropped. -/
theorem claim_C9_counterexample :
    (⟨⟨2021,8,15⟩,"2021","Aug","R",CellV.text "*"⟩ : PdfObs) ∈
      pdfProcessOneRoute "R" [⟨⟨2021,8,15⟩,"2021","Aug",CellV.text "*"⟩,
        ⟨⟨2021,9,15⟩,"2021","Sep",CellV.text "na"⟩] := by decide

/-- Claim C10 (confirmed): when both merge inputs are present and
either of them is missing any of the five canonical columns Date,
Year, Month, Route, Count, the merge returns no dataset at all, even
when the other input is complete. -/
theorem claim_C10_merge_column_check (r h : BFrame) (c : String)
    (hc : c ∈ requiredColumns)
    (hmiss : r.cols.contains c = false ∨ h.cols.contains c = false) :
    combine_bike_data (some r) (some h) = none := by
  simp only [combine_bike_data]
  have hneg : ¬ ((hasRequiredColumns r && hasRequiredColumns h) = true) := by
    simp only [Bool.and_eq_true, hasRequiredColumns, List.all_eq_true]
    rintro ⟨hr, hh⟩
    rcases hmiss with hm | hm
    · have := hr c hc
      rw [hm] at this
      cases this
    · have := hh c hc
      rw [hm] at this
      cases this
  rw [if_neg hneg]

/-- Witness for C10: the recent frame lacks the Count column while the
historical frame is complete, and the merge returns none. -/
theorem claim_C10_merge_column_check_witness :
    "Count" ∈ requiredColumns
    ∧ (⟨["Date", "Year", "Month", "Route"], []⟩ : BFrame).cols.contains "Count" = false
    ∧ combine_bike_data
        (some ⟨["Date", "Year", "Month", "Route"], []⟩)
        (some ⟨requiredColumns, []⟩) = none :=
  ⟨by decide, by decide,
   claim_C10_merge_column_check
     ⟨["Date", "Year", "Month", "Route"], []⟩ ⟨requiredColumns, []⟩
     "Count" (by decide) (Or.inl (by decide))⟩
